import Mathlib

set_option maxHeartbeats 1000000

/-!
Verification development for the alt-imate library: a shallow embedding of the
caption selector (`SmartCaptionGenerator`), the top-K extraction of the image
classifier (`ImageClassifier.classify`), the label-loading fallback
(`ImageClassifier.loadImageNetLabels` / `loadModel`), and the error wrapping of
the public entry points (`analyzeImage`, `classifyImage`, `preloadModel`).

Conventions of the embedding:
- JS numbers are embedded as rationals `ℚ`; the claims under study concern no
  floating-point rounding behaviour.
- A JS `Map` (insertion-ordered, string keys) is an association list
  `List (String × _)`; `Map.get` is `find?` on the key.
- A JS runtime failure (reading `.length` of `undefined` through the `!`
  non-null assertion) is modelled by `Option`: `none` means the call throws.
- Asynchronous IO (model download, label fetch) is abstracted by passing the
  outcome of the awaited operation as an `Except` argument.
-/

/-- One (label, probability) pair produced by the model for a candidate class
(src/types/index.ts, `ClassificationResult`): `className`, `probability`, and
`confidence`, the latter a duplicate of `probability`. -/
structure ClassificationResult where
  className : String
  probability : ℚ
  confidence : ℚ
  deriving DecidableEq

/-- Result of caption generation (src/types/index.ts, `AltTextResult`):
the generated sentence, the original classification list, and the top
confidence. -/
structure AltTextResult where
  altText : String
  classifications : List ClassificationResult
  confidence : ℚ
  deriving DecidableEq

/-- The `animals` member list of `OBJECT_CATEGORIES` (part_001 lines 10-27). -/
def animalsList : List String :=
  ["golden_retriever", "Labrador_retriever", "beagle", "German_shepherd",
   "border_collie", "pug", "chihuahua", "tabby", "Persian_cat", "Siamese_cat",
   "tiger", "lion", "elephant", "giraffe", "zebra", "panda"]

/-- The `food` member list of `OBJECT_CATEGORIES` (part_001 lines 28-40). -/
def foodList : List String :=
  ["banana", "apple", "orange", "strawberry", "pizza", "hamburger", "hot_dog",
   "coffee_mug", "wine_bottle", "sandwich", "ice_cream"]

/-- The `vehicles` member list of `OBJECT_CATEGORIES` (part_001 lines 41-51). -/
def vehiclesList : List String :=
  ["sports_car", "convertible", "limousine", "motorcycle", "bicycle",
   "school_bus", "truck", "airplane", "ship"]

/-- The `electronics` member list of `OBJECT_CATEGORIES` (part_001 lines 52-60). -/
def electronicsList : List String :=
  ["laptop", "desktop_computer", "cellular_telephone", "television", "radio",
   "computer_keyboard", "computer_mouse"]

/-- The `furniture` member list of `OBJECT_CATEGORIES` (part_001 line 61). -/
def furnitureList : List String :=
  ["chair", "table", "bed", "sofa", "bookshelf", "lamp", "clock"]

/-- The `clothing` member list of `OBJECT_CATEGORIES` (part_001 line 62). -/
def clothingList : List String :=
  ["suit", "dress", "jeans", "T-shirt", "sneakers", "hat"]

/-- The `sports` member list of `OBJECT_CATEGORIES` (part_001 lines 63-70). -/
def sportsList : List String :=
  ["tennis_ball", "basketball", "soccer_ball", "guitar", "piano", "violin"]

/-- `SmartCaptionGenerator.OBJECT_CATEGORIES` (part_001 lines 9-71), in object
literal insertion order, which is the order `Object.entries` iterates. -/
def OBJECT_CATEGORIES : List (String × List String) :=
  [("animals", animalsList), ("food", foodList), ("vehicles", vehiclesList),
   ("electronics", electronicsList), ("furniture", furnitureList),
   ("clothing", clothingList), ("sports", sportsList)]

/-- `SmartCaptionGenerator.KOREAN_TRANSLATIONS` (part_001 lines 74-135), as an
association list in source order. -/
def KOREAN_TRANSLATIONS : List (String × String) :=
  [("golden_retriever", "골든 리트리버"),
   ("Labrador_retriever", "래브라도 리트리버"),
   ("beagle", "비글"),
   ("German_shepherd", "저먼 셰퍼드"),
   ("border_collie", "보더 콜리"),
   ("pug", "퍼그"),
   ("chihuahua", "치와와"),
   ("tabby", "얼룩무늬 고양이"),
   ("Persian_cat", "페르시안 고양이"),
   ("Siamese_cat", "샴 고양이"),
   ("tiger", "호랑이"),
   ("lion", "사자"),
   ("elephant", "코끼리"),
   ("giraffe", "기린"),
   ("zebra", "얼룩말"),
   ("panda", "판다"),
   ("banana", "바나나"),
   ("apple", "사과"),
   ("orange", "오렌지"),
   ("strawberry", "딸기"),
   ("pizza", "피자"),
   ("hamburger", "햄버거"),
   ("hot_dog", "핫도그"),
   ("coffee_mug", "커피잔"),
   ("wine_bottle", "와인병"),
   ("sandwich", "샌드위치"),
   ("ice_cream", "아이스크림"),
   ("laptop", "노트북"),
   ("desktop_computer", "데스크톱 컴퓨터"),
   ("cellular_telephone", "스마트폰"),
   ("television", "텔레비전"),
   ("radio", "라디오"),
   ("computer_keyboard", "키보드"),
   ("computer_mouse", "마우스"),
   ("sports_car", "스포츠카"),
   ("convertible", "컨버터블"),
   ("motorcycle", "오토바이"),
   ("bicycle", "자전거"),
   ("school_bus", "스쿨버스"),
   ("chair", "의자"),
   ("table", "테이블"),
   ("bed", "침대"),
   ("sofa", "소파"),
   ("lamp", "램프"),
   ("suit", "정장"),
   ("dress", "드레스"),
   ("jeans", "청바지"),
   ("sneakers", "운동화"),
   ("hat", "모자")]

/-- `className.replace(/_/g, ' ')` (part_001 line 358): every underscore is
replaced by a space, character by character. -/
def underscoreToSpace (s : String) : String :=
  String.mk (s.data.map (fun c => if c = '_' then ' ' else c))

/-- `SmartCaptionGenerator.getKoreanName` (part_001 lines 354-360):
`KOREAN_TRANSLATIONS[className] || className.replace(/_/g, ' ')`. The JS `||`
takes the fallback when the lookup is `undefined` (key absent) and also when
the stored value is the empty string (falsy); the table has no empty values. -/
def getKoreanName (className : String) : String :=
  match KOREAN_TRANSLATIONS.lookup className with
  | some k => if k = "" then underscoreToSpace className else k
  | none => underscoreToSpace className

/-- `SmartCaptionGenerator.getObjectCategory` (part_001 lines 342-349): scan
`Object.entries(OBJECT_CATEGORIES)` in order, return the first category whose
member list contains the label, else `"unknown"`. -/
def getObjectCategory (className : String) : String :=
  match OBJECT_CATEGORIES.find? (fun p => p.2.contains className) with
  | some p => p.1
  | none => "unknown"

/-- `SmartCaptionGenerator.getCategoryDescription` (part_001 lines 386-397):
object-literal lookup with `|| '객체'` fallback. -/
def getCategoryDescription (category : String) : String :=
  if category = "animals" then "동물"
  else if category = "food" then "음식"
  else if category = "vehicles" then "차량"
  else if category = "electronics" then "전자기기"
  else if category = "furniture" then "가구"
  else if category = "clothing" then "의류"
  else if category = "sports" then "스포츠 용품"
  else "객체"

/-- `SmartCaptionGenerator.generateSingleObjectCaption` (part_001 lines
278-303). -/
def generateSingleObjectCaption (object : String) (confidence : ℚ)
    (category : String) : String :=
  if category = "animals" then
    if 0.8 < confidence then "귀여운 " ++ object ++ "의 사진입니다"
    else if 0.5 < confidence then object ++ "로 보이는 동물이 있습니다"
    else object ++ "와 비슷한 동물이 보입니다"
  else if category = "food" then
    if 0.8 < confidence then "맛있어 보이는 " ++ object ++ "입니다"
    else object ++ "로 보이는 음식이 있습니다"
  else if category = "electronics" then
    object ++ "가 있는 모습입니다"
  else if 0.7 < confidence then "사진에 " ++ object ++ "가 보입니다"
  else if 0.4 < confidence then object ++ "로 보이는 객체가 있습니다"
  else object ++ "와 비슷한 것이 보입니다"

/-- `SmartCaptionGenerator.generateSameCategoryCaption` (part_001 lines
308-319). `objects.join('와 ')` is `String.intercalate`. -/
def generateSameCategoryCaption (objects : List String) (category : String) :
    String :=
  let categoryDesc := getCategoryDescription category
  if objects.length = 1 then
    categoryDesc ++ " 사진입니다. " ++ objects.headI ++ "가 보입니다"
  else
    categoryDesc ++ " 관련 사진입니다. " ++ String.intercalate "와 " objects ++
      "가 보입니다"

/-- `SmartCaptionGenerator.generateMixedCategoryCaption` (part_001 lines
324-337). -/
def generateMixedCategoryCaption (mainObject : String)
    (otherObjects : List String) : String :=
  if otherObjects.length = 0 then
    "주로 " ++ mainObject ++ "가 보이는 사진입니다"
  else if otherObjects.length = 1 then
    mainObject ++ "와 " ++ otherObjects.headI ++ "가 함께 있는 사진입니다"
  else
    mainObject ++ "를 포함해 여러 객체들이 있는 복합적인 사진입니다"

/-- `results.reduce((sum, r) => sum + r.confidence, 0)` (part_001 line 373). -/
def sumConfidence (results : List ClassificationResult) : ℚ :=
  results.foldl (fun sum r => sum + r.confidence) 0

/-- Mean confidence of a category's member records (part_001 lines 372-373). -/
def avgConfidence (results : List ClassificationResult) : ℚ :=
  sumConfidence results / (results.length : ℚ)

/-- One iteration of the loop in `getDominantCategory` (part_001 lines
371-378): the accumulator is `(maxConfidence, dominantCategory)` and is
replaced when the entry's mean confidence strictly exceeds the running max. -/
def dominantStep (acc : ℚ × String) (p : String × List ClassificationResult) :
    ℚ × String :=
  if acc.1 < avgConfidence p.2 then (avgConfidence p.2, p.1) else acc

/-- `SmartCaptionGenerator.getDominantCategory` (part_001 lines 365-381):
fold over the map entries in insertion order, starting from
`maxConfidence = 0`, `dominantCategory = 'unknown'`. -/
def getDominantCategory
    (categorized : List (String × List ClassificationResult)) : String :=
  (categorized.foldl dominantStep (0, "unknown")).2

/-- `Map.get` on the insertion-ordered categorized map. -/
def mapGet (m : List (String × List ClassificationResult)) (key : String) :
    Option (List ClassificationResult) :=
  (m.find? (fun p => p.1 = key)).map (fun p => p.2)

/-- The body of the categorizing loop in `analyzeClassifications` (part_001
lines 202-211): `if (!categorized.has(cat)) categorized.set(cat, []);
categorized.get(cat)!.push(result)`. A new key is appended at the end
(JS `Map` insertion order); an existing key has the record pushed. -/
def insertCategorized (m : List (String × List ClassificationResult))
    (category : String) (r : ClassificationResult) :
    List (String × List ClassificationResult) :=
  if m.any (fun p => p.1 = category) then
    m.map (fun p => if p.1 = category then (p.1, p.2 ++ [r]) else p)
  else
    m ++ [(category, [r])]

/-- The categorized map built by `analyzeClassifications` from the top
results (part_001 lines 197-211). -/
def buildCategorized (topResults : List ClassificationResult) :
    List (String × List ClassificationResult) :=
  topResults.foldl
    (fun m r => insertCategorized m (getObjectCategory r.className) r) []

/-- The `translated.get(result.className)` / `if (koreanName)` push loops
(part_001 lines 255-258 and 266-269): `translated` maps each analyzed
`className` to `getKoreanName(className)`, so a successful get returns that
value, and the truthiness test drops the empty string. -/
def truthyKorean (rs : List ClassificationResult) : List String :=
  rs.filterMap (fun r =>
    let koreanName := getKoreanName r.className
    if koreanName = "" then none else some koreanName)

/-- The `otherObjects` collection of the mixed-category path (part_001 lines
264-270): for each map entry in insertion order, push the truthy Korean names
of `results.slice(1, 3)`. -/
def mixedOtherObjects
    (categorized : List (String × List ClassificationResult)) : List String :=
  categorized.foldl (fun acc p => acc ++ truthyKorean ((p.2.drop 1).take 2)) []

/-- The same-category path of `generateContextualCaption` (part_001 lines
251-261). `categorized.get(dominantCategory)!` is `undefined` when the key is
absent, and the subsequent use throws: modelled by `none`. -/
def sameCategoryBranch (categorized : List (String × List ClassificationResult))
    (dominantCategory : String) : Option String :=
  match mapGet categorized dominantCategory with
  | none => none
  | some categoryResults =>
      some (generateSameCategoryCaption (truthyKorean (categoryResults.take 2))
        dominantCategory)

/-- The continuation of `generateContextualCaption` after the single-object
test fails (part_001 lines 250-272). -/
def captionTail (mainObject : String)
    (categorized : List (String × List ClassificationResult))
    (hasMultipleCategories : Bool) (dominantCategory : String) : Option String :=
  if hasMultipleCategories = false then
    sameCategoryBranch categorized dominantCategory
  else
    some (generateMixedCategoryCaption mainObject
      (mixedOtherObjects categorized))

/-- `SmartCaptionGenerator.generateContextualCaption` (part_001 lines
225-273). The first `if` short-circuits: `categorized.get(dominantCategory)!`
is only evaluated when `categorized.size === 1`, and reading `.length` of
`undefined` throws (`none`). `mainObject` is
`translated.get(topResult.className) || topResult.className`, where the
`translated` map stores `getKoreanName` of each analyzed class name. -/
def generateContextualCaption (topResult : ClassificationResult)
    (categorized : List (String × List ClassificationResult))
    (hasMultipleCategories : Bool) (dominantCategory : String) : Option String :=
  let koreanMain := getKoreanName topResult.className
  let mainObject := if koreanMain = "" then topResult.className else koreanMain
  if categorized.length = 1 then
    match mapGet categorized dominantCategory with
    | none => none
    | some rs =>
        if rs.length = 1 then
          some (generateSingleObjectCaption mainObject topResult.confidence
            dominantCategory)
        else
          captionTail mainObject categorized hasMultipleCategories
            dominantCategory
  else
    captionTail mainObject categorized hasMultipleCategories dominantCategory

/-- `SmartCaptionGenerator.generateSmartCaption` (part_001 lines 166-189):
empty input returns the fixed sentence; otherwise analyze the top 3 records,
generate the contextual caption, and return it with the original list and the
first record's confidence. `none` models a thrown runtime error. -/
def generateSmartCaption (classifications : List ClassificationResult) :
    Option AltTextResult :=
  match classifications with
  | [] =>
      some { altText := "분석할 수 없는 이미지입니다", classifications := [],
             confidence := 0 }
  | top :: _ =>
      let topResults := classifications.take 3
      let categorized := buildCategorized topResults
      let hasMultipleCategories : Bool := decide (1 < categorized.length)
      let dominantCategory := getDominantCategory categorized
      match generateContextualCaption top categorized hasMultipleCategories
          dominantCategory with
      | none => none
      | some caption =>
          some { altText := caption, classifications := classifications,
                 confidence := top.confidence }

/-- `this.classNames[index] || Unknown_index` (part_002 line 101): JS takes
the fallback both when the index is out of range (`undefined`) and when the
stored label is the empty string (falsy). -/
def labelAt (classNames : List String) (index : ℕ) : String :=
  let name := classNames.getD index ""
  if name = "" then "Unknown_" ++ toString index else name

/-- `Array.from(probabilities).map((prob, index) => ({probability, index}))`
(part_002 lines 94-95). -/
def probIndexPairs (probabilities : List ℚ) : List (ℚ × ℕ) :=
  probabilities.enum.map (fun p => (p.2, p.1))

/-- The sort comparator `(a, b) => b.probability - a.probability` (part_002
line 96): `a` sorts no later than `b` exactly when `b.1 ≤ a.1`. -/
def probDesc (a b : ℚ × ℕ) : Bool := decide (b.1 ≤ a.1)

/-- The top-K extraction of `ImageClassifier.classify` (part_002 lines
93-105): sort the (probability, index) pairs by descending probability
(JS `Array.prototype.sort` is a stable comparison sort, embedded as
`mergeSort`), take the first `maxPredictions`, and map indices to labels. -/
def classify (probabilities : List ℚ) (classNames : List String)
    (maxPredictions : ℕ) : List ClassificationResult :=
  let indices := ((probIndexPairs probabilities).mergeSort probDesc).take
    maxPredictions
  indices.map (fun pi =>
    { className := labelAt classNames pi.2, probability := pi.1,
      confidence := pi.1 })

/-- `ImageClassifier.loadImageNetLabels` (part_002 lines 124-145). The
argument is the outcome of the awaited fetch: `Except.ok text` is a
successful response body, `Except.error e` is a network failure or a non-ok
HTTP status (both reach the `catch`). On failure the fallback is
`Array.from({length: 1000}, (_, i) => class_i)`; the function itself never
throws. -/
def loadImageNetLabels (fetchResult : Except String String) : List String :=
  match fetchResult with
  | Except.ok labelsText => labelsText.trim.splitOn "\n"
  | Except.error _ => (List.range 1000).map (fun i => "class_" ++ toString i)

/-- `ImageClassifier.loadModel` (part_002 lines 20-68), restricted to its
failure structure: the model download outcome and the label fetch outcome are
passed in; a model failure is re-thrown wrapped in the Korean message, while
the label step cannot fail (its errors are caught inside
`loadImageNetLabels`). On success the resulting class-name list is
returned. -/
def loadModelLabels (modelLoad : Except String Unit)
    (labelsFetch : Except String String) : Except String (List String) :=
  match modelLoad with
  | Except.error e => Except.error ("모델 로딩에 실패했습니다: " ++ e)
  | Except.ok _ => Except.ok (loadImageNetLabels labelsFetch)

/-- A thrown JS value at the public API boundary (src/index.ts): either a
generic `Error` with a message, or the tagged `ImageAnalysisError` with
message and code (src/types/index.ts lines 58-66). -/
inductive JsError where
  | generic (message : String)
  | imageAnalysisError (message : String) (code : String)
  deriving DecidableEq

/-- `error.message` of a thrown `Error`. -/
def JsError.message : JsError → String
  | JsError.generic m => m
  | JsError.imageAnalysisError m _ => m

/-- The `catch` block of `analyzeImage` (src/index.ts lines 94-105): an
`ImageAnalysisError` is re-thrown unchanged; any other failure is wrapped
with code `ANALYSIS_FAILED`. The argument is the outcome of the function
body. -/
def analyzeImageCatch {α : Type} (r : Except JsError α) : Except JsError α :=
  match r with
  | Except.ok v => Except.ok v
  | Except.error (JsError.imageAnalysisError m c) =>
      Except.error (JsError.imageAnalysisError m c)
  | Except.error (JsError.generic m) =>
      Except.error (JsError.imageAnalysisError
        ("이미지 분석 중 오류가 발생했습니다: " ++ m) "ANALYSIS_FAILED")

/-- The `catch` block of `classifyImage` (src/index.ts lines 131-136): every
failure, tagged or not, is wrapped with code `CLASSIFICATION_FAILED`. -/
def classifyImageCatch {α : Type} (r : Except JsError α) : Except JsError α :=
  match r with
  | Except.ok v => Except.ok v
  | Except.error e =>
      Except.error (JsError.imageAnalysisError
        ("이미지 분류 중 오류가 발생했습니다: " ++ e.message) "CLASSIFICATION_FAILED")

/-- `preloadModel` (src/index.ts lines 143-151) has no `try`/`catch`: the
outcome of its body propagates to the caller unchanged. -/
def preloadModelResult {α : Type} (r : Except JsError α) : Except JsError α :=
  r

/-- Whether an outcome is either success or a failure carried by the tagged
`ImageAnalysisError` type. -/
def errorIsTagged {α : Type} : Except JsError α → Bool
  | Except.error (JsError.generic _) => false
  | _ => true

/-! ## Helper lemmas -/

/-- Every Korean translation stored in the table is a non-empty string, so the
JS truthiness fallback in `getKoreanName` never fires on a table hit. -/
theorem korean_values_ne_empty : ∀ p ∈ KOREAN_TRANSLATIONS, p.2 ≠ "" := by
  decide

/-- `find?` returns the element at position `i` when it satisfies the
predicate and nothing before it does. -/
theorem find?_eq_of_getElem? {α : Type} (p : α → Bool) :
    ∀ (l : List α) (i : ℕ) (x : α), l[i]? = some x → p x = true →
      (∀ y ∈ l.take i, p y = false) → l.find? p = some x := by
  intro l
  induction l with
  | nil => intro i x hx; simp at hx
  | cons a t ih =>
      intro i x hx hp hbefore
      cases i with
      | zero =>
          simp only [List.getElem?_cons_zero, Option.some.injEq] at hx
          subst hx
          exact List.find?_cons_of_pos _ hp
      | succ j =>
          have ha : p a = false := hbefore a (by simp [List.take_succ_cons])
          rw [List.find?_cons_of_neg _ (by simp [ha])]
          exact ih j x (by simpa using hx) hp
            (fun y hy => hbefore y (by simp [List.take_succ_cons, hy]))

/-- A successful association-list lookup exhibits a member pair. -/
theorem lookup_mem_pair {α β : Type} [BEq α] [LawfulBEq α]
    {l : List (α × β)} {k : α} {b : β} (h : l.lookup k = some b) :
    (k, b) ∈ l := by
  obtain ⟨l₁, l₂, rfl, -⟩ := List.lookup_eq_some_iff.mp h
  simp

/-- `List.contains` agrees with membership for strings. -/
theorem contains_iff_mem_str {l : List String} {a : String} :
    l.contains a = true ↔ a ∈ l := by
  unfold List.contains
  exact List.elem_iff

/-- `List.contains` is `false` on a non-member. -/
theorem contains_eq_false_of_not_mem {l : List String} {a : String}
    (h : a ∉ l) : l.contains a = false := by
  cases hb : l.contains a with
  | false => rfl
  | true => exact absurd (contains_iff_mem_str.mp hb) h

/-! ## C1 -/

/-- C1: for the empty classification list, `generateSmartCaption` returns the
fixed "cannot analyze" sentence together with an empty classification list and
confidence 0, and does not throw (the result is `some`, not `none`). -/
theorem empty_input_fixed_caption :
    generateSmartCaption [] =
      some { altText := "분석할 수 없는 이미지입니다", classifications := [],
             confidence := 0 } := rfl

/-! ## C5 -/

/-- C5: a label present in the Korean translation table is translated to
exactly the table's Korean string, and a label absent from the table falls
back to the label with every underscore replaced by a space. -/
theorem korean_name_lookup (label : String) :
    (∀ k, KOREAN_TRANSLATIONS.lookup label = some k → getKoreanName label = k) ∧
    (KOREAN_TRANSLATIONS.lookup label = none →
      getKoreanName label = underscoreToSpace label) := by
  constructor
  · intro k hk
    have hne : k ≠ "" := korean_values_ne_empty (label, k) (lookup_mem_pair hk)
    unfold getKoreanName
    rw [hk]
    exact if_neg hne
  · intro hnone
    unfold getKoreanName
    rw [hnone]

/-- Witness for C5: a translated label and an untranslated label with an
underscore, both computed concretely. -/
theorem korean_name_lookup_witness :
    getKoreanName "golden_retriever" = "골든 리트리버" ∧
    getKoreanName "soccer_ball" = "soccer ball" := by
  constructor
  · exact (korean_name_lookup "golden_retriever").1 "골든 리트리버" rfl
  · have h := (korean_name_lookup "soccer_ball").2 rfl
    rw [h]
    decide

/-! ## C7 -/

/-- C7: `getObjectCategory` returns the name of the first category (in the
fixed table order) whose member list contains the label, and `"unknown"` when
no category's member list contains it. -/
theorem object_category_first_match (label : String) :
    (∀ i entry, OBJECT_CATEGORIES[i]? = some entry → label ∈ entry.2 →
      (∀ q ∈ OBJECT_CATEGORIES.take i, label ∉ q.2) →
      getObjectCategory label = entry.1) ∧
    ((∀ q ∈ OBJECT_CATEGORIES, label ∉ q.2) →
      getObjectCategory label = "unknown") := by
  constructor
  · intro i entry hget hmem hbefore
    unfold getObjectCategory
    rw [find?_eq_of_getElem? _ OBJECT_CATEGORIES i entry hget
      (contains_iff_mem_str.mpr hmem)
      (fun q hq => contains_eq_false_of_not_mem (hbefore q hq))]
  · intro hnone
    unfold getObjectCategory
    rw [List.find?_eq_none.mpr (fun q hq => by
      simp only [contains_eq_false_of_not_mem (hnone q hq)]
      exact Bool.false_ne_true)]

/-- Witness for C7: `banana` is matched by the second category (`food`) and
not by the first, and a label in no member list maps to `"unknown"`. -/
theorem object_category_first_match_witness :
    getObjectCategory "banana" = "food" ∧
    getObjectCategory "volcano" = "unknown" := by
  constructor
  · exact (object_category_first_match "banana").1 1 ("food", foodList) rfl
      (by decide) (by decide)
  · exact (object_category_first_match "volcano").2 (by decide)

/-! ## C8 -/

/-- C8: when the label-file fetch fails, `loadModel` still completes
successfully (the failure is caught inside `loadImageNetLabels` and does not
fail the call), and the class-name list becomes exactly the 1000 placeholder
labels `class_0` .. `class_999`. -/
theorem label_fetch_failure_fallback (e : String) (i : ℕ) (hi : i < 1000) :
    ∃ labels, loadModelLabels (Except.ok ()) (Except.error e) =
        Except.ok labels ∧
      labels.length = 1000 ∧ labels[i]? = some ("class_" ++ toString i) := by
  refine ⟨loadImageNetLabels (Except.error e), rfl, ?_, ?_⟩
  · simp [loadImageNetLabels]
  · simp [loadImageNetLabels, List.getElem?_range hi]

/-- Witness for C8: a concrete fetch failure yields a successful load with
1000 placeholder labels, the last being `class_999`. -/
theorem label_fetch_failure_fallback_witness :
    ∃ labels, loadModelLabels (Except.ok ()) (Except.error "HTTP 404") =
        Except.ok labels ∧
      labels.length = 1000 ∧ labels[999]? = some ("class_" ++ toString 999) :=
  label_fetch_failure_fallback "HTTP 404" 999 (by decide)

/-! ## C9 -/

/-- Counterexample for C9: `preloadModel` has no `try`/`catch`, so a generic
failure raised inside it (for example a model-load network error) propagates
to the caller untagged, not as an `ImageAnalysisError`. -/
theorem preload_failure_not_wrapped :
    errorIsTagged (preloadModelResult
      (Except.error (JsError.generic "network failure") :
        Except JsError Unit)) = false := rfl

/-- C9 (amended): `analyzeImage` passes an `ImageAnalysisError` through
unchanged and wraps any other failure with code `ANALYSIS_FAILED`;
`classifyImage` wraps every failure with code `CLASSIFICATION_FAILED`;
`preloadModel` performs no wrapping and propagates its failure unchanged. -/
theorem entry_point_error_wrapping (m c s : String) :
    analyzeImageCatch (Except.error (JsError.imageAnalysisError m c) :
        Except JsError AltTextResult) =
      Except.error (JsError.imageAnalysisError m c) ∧
    analyzeImageCatch (Except.error (JsError.generic s) :
        Except JsError AltTextResult) =
      Except.error (JsError.imageAnalysisError
        ("이미지 분석 중 오류가 발생했습니다: " ++ s) "ANALYSIS_FAILED") ∧
    (∀ e : JsError, classifyImageCatch (Except.error e :
        Except JsError (List ClassificationResult)) =
      Except.error (JsError.imageAnalysisError
        ("이미지 분류 중 오류가 발생했습니다: " ++ e.message) "CLASSIFICATION_FAILED")) ∧
    (∀ e : JsError, preloadModelResult (Except.error e : Except JsError Unit) =
      Except.error e) :=
  ⟨rfl, rfl, fun _ => rfl, fun _ => rfl⟩

/-! ## C10 -/

/-- C10: `limousine` and `tennis_ball` are members of the fixed category table
(`vehicles` and `sports` respectively) but absent from the Korean translation
table, so `getKoreanName` falls back to the underscore-replaced English label:
category membership does not imply an exact Korean translation. -/
theorem category_without_translation :
    getObjectCategory "limousine" = "vehicles" ∧
    KOREAN_TRANSLATIONS.lookup "limousine" = none ∧
    getKoreanName "limousine" = "limousine" ∧
    getObjectCategory "tennis_ball" = "sports" ∧
    KOREAN_TRANSLATIONS.lookup "tennis_ball" = none ∧
    getKoreanName "tennis_ball" = "tennis ball" := by
  decide

/-! ## C2 -/

/-- The fold of `getDominantCategory` keeps its accumulator when no remaining
entry's mean beats the running maximum. -/
theorem foldl_dominantStep_stay :
    ∀ (l : List (String × List ClassificationResult)) (acc : ℚ × String),
      (∀ p ∈ l, avgConfidence p.2 ≤ acc.1) → l.foldl dominantStep acc = acc := by
  intro l
  induction l with
  | nil => intro acc _; rfl
  | cons a t ih =>
      intro acc h
      have hstep : dominantStep acc a = acc := by
        unfold dominantStep
        rw [if_neg (not_lt.mpr (h a (by simp)))]
      rw [List.foldl_cons, hstep]
      exact ih acc (fun p hp => h p (by simp [hp]))

/-- The fold of `getDominantCategory` lands on the entry whose mean strictly
beats the accumulator and every other entry. -/
theorem foldl_dominantStep_max (c : String) (rs : List ClassificationResult) :
    ∀ (l : List (String × List ClassificationResult)) (acc : ℚ × String),
      (c, rs) ∈ l → acc.1 < avgConfidence rs →
      (∀ p ∈ l, p ≠ (c, rs) → avgConfidence p.2 < avgConfidence rs) →
      (l.foldl dominantStep acc).2 = c := by
  intro l
  induction l with
  | nil => intro acc h; simp at h
  | cons a t ih =>
      intro acc hmem hacc hmax
      by_cases ha : a = (c, rs)
      · subst ha
        have hstep : dominantStep acc (c, rs) = (avgConfidence rs, c) := by
          unfold dominantStep
          rw [if_pos hacc]
        rw [List.foldl_cons, hstep, foldl_dominantStep_stay t (avgConfidence rs, c)]
        intro p hp
        by_cases hp2 : p = (c, rs)
        · subst hp2; exact le_refl _
        · exact le_of_lt (hmax p (by simp [hp]) hp2)
      · have hmem2 : (c, rs) ∈ t := by
          rcases List.mem_cons.mp hmem with h | h
          · exact absurd h.symm ha
          · exact h
        have hacc2 : (dominantStep acc a).1 < avgConfidence rs := by
          unfold dominantStep
          by_cases h2 : acc.1 < avgConfidence a.2
          · rw [if_pos h2]
            exact hmax a (by simp) ha
          · rw [if_neg h2]
            exact hacc
        rw [List.foldl_cons]
        exact ih (dominantStep acc a) hmem2 hacc2
          (fun p hp hne => hmax p (by simp [hp]) hne)

/-- The running sum of confidences is nonnegative when every confidence is. -/
theorem sumConfidence_nonneg {rs : List ClassificationResult}
    (h : ∀ r ∈ rs, 0 ≤ r.confidence) : 0 ≤ sumConfidence rs := by
  unfold sumConfidence
  have haux : ∀ (l : List ClassificationResult) (init : ℚ),
      (∀ r ∈ l, 0 ≤ r.confidence) → 0 ≤ init →
      0 ≤ l.foldl (fun sum r => sum + r.confidence) init := by
    intro l
    induction l with
    | nil => intro init _ h0; simpa using h0
    | cons a t ih =>
        intro init hl h0
        rw [List.foldl_cons]
        exact ih (init + a.confidence) (fun r hr => hl r (by simp [hr]))
          (add_nonneg h0 (hl a (by simp)))
  exact haux rs 0 h le_rfl

/-- The mean confidence is nonnegative when every confidence is. -/
theorem avgConfidence_nonneg {rs : List ClassificationResult}
    (h : ∀ r ∈ rs, 0 ≤ r.confidence) : 0 ≤ avgConfidence rs :=
  div_nonneg (sumConfidence_nonneg h) (by positivity)

/-- C2: on a categorized map with distinct keys spanning more than one
category, `getDominantCategory` returns the category whose member records
have the strictly highest mean confidence (confidences being nonnegative,
as probabilities are). -/
theorem dominant_category_highest_mean
    (m : List (String × List ClassificationResult)) (c : String)
    (rs : List ClassificationResult)
    (hmem : (c, rs) ∈ m)
    (hkeys : (m.map Prod.fst).Nodup)
    (hconf : ∀ p ∈ m, ∀ r ∈ p.2, 0 ≤ r.confidence)
    (hspan : ∃ p ∈ m, p.1 ≠ c)
    (hmax : ∀ p ∈ m, p.1 ≠ c → avgConfidence p.2 < avgConfidence rs) :
    getDominantCategory m = c := by
  have hmax2 : ∀ p ∈ m, p ≠ (c, rs) → avgConfidence p.2 < avgConfidence rs := by
    intro p hp hne
    by_cases hk : p.1 = c
    · exact absurd (List.inj_on_of_nodup_map hkeys hp hmem hk) hne
    · exact hmax p hp hk
  obtain ⟨p0, hp0, hp0ne⟩ := hspan
  have hpos : 0 < avgConfidence rs :=
    lt_of_le_of_lt (avgConfidence_nonneg (hconf p0 hp0)) (hmax p0 hp0 hp0ne)
  unfold getDominantCategory
  exact foldl_dominantStep_max c rs m (0, "unknown") hmem hpos hmax2

/-- Witness for C2: a two-category map in which `animals` has the higher mean
confidence, computed concretely. -/
theorem dominant_category_highest_mean_witness :
    getDominantCategory
      [("animals", [⟨"tiger", 1/2, 1/2⟩]), ("food", [⟨"pizza", 3/10, 3/10⟩])] =
      "animals" :=
  dominant_category_highest_mean _ "animals" [⟨"tiger", 1/2, 1/2⟩]
    (List.mem_cons_self _ _) (by decide)
    (by norm_num [List.forall_mem_cons])
    ⟨("food", [⟨"pizza", 3/10, 3/10⟩]),
      List.mem_cons_of_mem _ (List.mem_cons_self _ _), by decide⟩
    (by norm_num [List.forall_mem_cons, avgConfidence, sumConfidence])

/-! ## C3 -/

/-- Counterexample for C3: for a probability vector of length 1 and requested
count 2, `classify` returns 1 record, not the requested 2 (the JS
`slice(0, maxPredictions)` silently truncates at the vector length). -/
theorem classify_short_vector_count :
    (classify [(1 : ℚ)/2] ["label_a"] 2).length ≠ 2 := by
  have h : classify [(1 : ℚ)/2] ["label_a"] 2 =
      [{ className := "label_a", probability := (1 : ℚ)/2,
         confidence := (1 : ℚ)/2 }] := by
    unfold classify
    rw [show probIndexPairs [(1 : ℚ)/2] = [((1 : ℚ)/2, 0)] from rfl,
      List.mergeSort_singleton]
    rfl
  rw [h]
  decide

/-- The comparator of `classify` is transitive. -/
theorem probDesc_trans : ∀ a b c : ℚ × ℕ,
    probDesc a b → probDesc b c → probDesc a c := by
  intro a b c hab hbc
  simp only [probDesc, decide_eq_true_eq] at hab hbc ⊢
  exact le_trans hbc hab

/-- The comparator of `classify` is total. -/
theorem probDesc_total : ∀ a b : ℚ × ℕ, probDesc a b || probDesc b a := by
  intro a b
  simp only [probDesc, Bool.or_eq_true, decide_eq_true_eq]
  exact le_total b.1 a.1

/-- With no empty label stored, the JS fallback `classNames[index] ||
Unknown_index` is exactly "the label at the index, or the placeholder when the
index has no label". -/
theorem labelAt_eq_getD (classNames : List String) (i : ℕ)
    (hlabels : ∀ s ∈ classNames, s ≠ "") :
    labelAt classNames i = (classNames[i]?).getD ("Unknown_" ++ toString i) := by
  unfold labelAt
  cases h : classNames[i]? with
  | none => simp [h]
  | some s => simp [h, hlabels s (List.getElem?_mem h)]

/-- C3 (amended): `classify` returns exactly `min K |v|` records (the
requested count, truncated at the vector length), sorted in descending order
of probability, each record carrying `confidence = probability` and the label
found at an original index of its probability in the vector, with the
`Unknown_<index>` placeholder when that index has no label. -/
theorem classify_topk (probabilities : List ℚ) (classNames : List String)
    (maxPredictions : ℕ) (hlabels : ∀ s ∈ classNames, s ≠ "") :
    (classify probabilities classNames maxPredictions).length =
      min maxPredictions probabilities.length ∧
    (classify probabilities classNames maxPredictions).Pairwise
      (fun a b => b.probability ≤ a.probability) ∧
    ∀ r ∈ classify probabilities classNames maxPredictions,
      r.confidence = r.probability ∧
      ∃ i : ℕ, probabilities[i]? = some r.probability ∧
        r.className = (classNames[i]?).getD ("Unknown_" ++ toString i) := by
  refine ⟨?_, ?_, ?_⟩
  · unfold classify
    simp [probIndexPairs]
  · unfold classify
    have hsorted := List.sorted_mergeSort probDesc_trans probDesc_total
      (probIndexPairs probabilities)
    have htake := List.Pairwise.sublist
      (List.take_sublist maxPredictions _) hsorted
    refine List.pairwise_map.mpr (htake.imp ?_)
    intro a b hab
    simpa [probDesc, decide_eq_true_eq] using hab
  · intro r hr
    unfold classify at hr
    obtain ⟨pi, hpi, rfl⟩ := List.mem_map.mp hr
    refine ⟨rfl, pi.2, ?_, labelAt_eq_getD classNames pi.2 hlabels⟩
    have hsort : pi ∈ (probIndexPairs probabilities).mergeSort probDesc :=
      List.take_subset _ _ hpi
    have hmem : pi ∈ probIndexPairs probabilities :=
      List.mem_mergeSort.mp hsort
    obtain ⟨q, hq, hq2⟩ := List.mem_map.mp hmem
    have hget : probabilities[q.1]? = some q.2 :=
      List.mk_mem_enum_iff_getElem?.mp (by simpa using hq)
    rw [← hq2]
    simpa using hget

/-- Witness for C3: a concrete three-element vector with nonempty labels,
classified with requested count 2. -/
theorem classify_topk_witness :
    (classify [1/10, 9/10, 1/2] ["a", "b", "c"] 2).length =
      min 2 ([1/10, 9/10, (1 : ℚ)/2].length) ∧
    (classify [1/10, 9/10, 1/2] ["a", "b", "c"] 2).Pairwise
      (fun a b => b.probability ≤ a.probability) ∧
    ∀ r ∈ classify [1/10, 9/10, 1/2] ["a", "b", "c"] 2,
      r.confidence = r.probability ∧
      ∃ i : ℕ, [1/10, 9/10, (1 : ℚ)/2][i]? = some r.probability ∧
        r.className = ((["a", "b", "c"] : List String)[i]?).getD
          ("Unknown_" ++ toString i) :=
  classify_topk [1/10, 9/10, 1/2] ["a", "b", "c"] 2 (by decide)

/-! ## Machinery for C4 and C6 -/

/-- Unfolding of `generateSmartCaption` on a non-empty list. -/
theorem generateSmartCaption_cons (top : ClassificationResult)
    (rest : List ClassificationResult) :
    generateSmartCaption (top :: rest) =
      match generateContextualCaption top
          (buildCategorized ((top :: rest).take 3))
          (decide (1 < (buildCategorized ((top :: rest).take 3)).length))
          (getDominantCategory (buildCategorized ((top :: rest).take 3))) with
      | none => none
      | some caption =>
          some { altText := caption, classifications := top :: rest,
                 confidence := top.confidence } := rfl

/-- A record already placed in the categorized map stays placed after an
insertion. -/
theorem insertCategorized_preserves
    (m : List (String × List ClassificationResult)) (category : String)
    (r x : ClassificationResult) (h : ∃ q ∈ m, x ∈ q.2) :
    ∃ p ∈ insertCategorized m category r, x ∈ p.2 := by
  obtain ⟨q, hq, hx⟩ := h
  unfold insertCategorized
  by_cases hc : m.any (fun p => p.1 = category) = true
  · rw [if_pos hc]
    refine ⟨if q.1 = category then (q.1, q.2 ++ [r]) else q,
      List.mem_map_of_mem _ hq, ?_⟩
    by_cases hq1 : q.1 = category
    · simp [hq1, hx]
    · simp [hq1, hx]
  · rw [if_neg hc]
    exact ⟨q, List.mem_append_left _ hq, hx⟩

/-- The inserted record is placed in the categorized map. -/
theorem insertCategorized_mem_self
    (m : List (String × List ClassificationResult)) (category : String)
    (r : ClassificationResult) :
    ∃ p ∈ insertCategorized m category r, r ∈ p.2 := by
  unfold insertCategorized
  by_cases hc : m.any (fun p => p.1 = category) = true
  · rw [if_pos hc]
    obtain ⟨q, hq, hq1⟩ := List.any_eq_true.mp hc
    have hq2 : q.1 = category := of_decide_eq_true hq1
    refine ⟨(q.1, q.2 ++ [r]), ?_, by simp⟩
    have hmap := List.mem_map_of_mem
      (fun p => if p.1 = category then (p.1, p.2 ++ [r]) else p) hq
    simpa [hq2] using hmap
  · rw [if_neg hc]
    exact ⟨(category, [r]), by simp, by simp⟩

/-- Any record found in the categorized map after an insertion either was
already in the map or is the inserted record. -/
theorem insertCategorized_sub
    (m : List (String × List ClassificationResult)) (category : String)
    (r : ClassificationResult) (p : String × List ClassificationResult)
    (hp : p ∈ insertCategorized m category r) (x : ClassificationResult)
    (hx : x ∈ p.2) : (∃ q ∈ m, x ∈ q.2) ∨ x = r := by
  unfold insertCategorized at hp
  by_cases hc : m.any (fun p => p.1 = category) = true
  · rw [if_pos hc] at hp
    obtain ⟨q, hq, hqe⟩ := List.mem_map.mp hp
    by_cases hq1 : q.1 = category
    · rw [if_pos hq1] at hqe
      rw [← hqe] at hx
      rcases List.mem_append.mp hx with h | h
      · exact Or.inl ⟨q, hq, h⟩
      · exact Or.inr (by simpa using h)
    · rw [if_neg hq1] at hqe
      rw [← hqe] at hx
      exact Or.inl ⟨q, hq, hx⟩
  · rw [if_neg hc] at hp
    rcases List.mem_append.mp hp with h | h
    · exact Or.inl ⟨p, h, hx⟩
    · have hpe : p = (category, [r]) := by simpa using h
      rw [hpe] at hx
      exact Or.inr (by simpa using hx)

/-- Every record fed into `buildCategorized` (over any starting map) ends up
placed in some entry of the resulting map. -/
theorem foldl_insert_mem (ts : List ClassificationResult) :
    ∀ (m : List (String × List ClassificationResult))
      (x : ClassificationResult), ((∃ q ∈ m, x ∈ q.2) ∨ x ∈ ts) →
      ∃ p ∈ ts.foldl
          (fun m r => insertCategorized m (getObjectCategory r.className) r) m,
        x ∈ p.2 := by
  induction ts with
  | nil =>
      intro m x h
      rcases h with h | h
      · exact h
      · simp at h
  | cons t ts ih =>
      intro m x h
      rw [List.foldl_cons]
      rcases h with h | h
      · exact ih _ x (Or.inl (insertCategorized_preserves m _ t x h))
      · rcases List.mem_cons.mp h with rfl | h2
        · exact ih _ x (Or.inl (insertCategorized_mem_self m _ x))
        · exact ih _ x (Or.inr h2)

/-- Every record placed by `buildCategorized` (over any starting map) came
from the starting map or from the fed records. -/
theorem foldl_insert_sub (ts : List ClassificationResult) :
    ∀ (m : List (String × List ClassificationResult))
      (p : String × List ClassificationResult),
      p ∈ ts.foldl
          (fun m r => insertCategorized m (getObjectCategory r.className) r) m →
      ∀ x ∈ p.2, (∃ q ∈ m, x ∈ q.2) ∨ x ∈ ts := by
  induction ts with
  | nil => intro m p hp x hx; exact Or.inl ⟨p, hp, hx⟩
  | cons t ts ih =>
      intro m p hp x hx
      rw [List.foldl_cons] at hp
      rcases ih _ p hp x hx with h | h
      · obtain ⟨q, hq, hxq⟩ := h
        rcases insertCategorized_sub m _ t q hq x hxq with h2 | h2
        · exact Or.inl h2
        · exact Or.inr (by simp [h2])
      · exact Or.inr (by simp [h])

/-- The fold of `getDominantCategory` either keeps its starting category name
or returns a key of the map. -/
theorem foldl_dominantStep_res :
    ∀ (l : List (String × List ClassificationResult)) (acc : ℚ × String),
      (l.foldl dominantStep acc).2 = acc.2 ∨
      (l.foldl dominantStep acc).2 ∈ l.map Prod.fst := by
  intro l
  induction l with
  | nil => intro acc; exact Or.inl rfl
  | cons a t ih =>
      intro acc
      rw [List.foldl_cons, List.map_cons]
      have hstep : dominantStep acc a = (avgConfidence a.2, a.1) ∨
          dominantStep acc a = acc := by
        unfold dominantStep
        by_cases h2 : acc.1 < avgConfidence a.2
        · exact Or.inl (by rw [if_pos h2])
        · exact Or.inr (by rw [if_neg h2])
      rcases hstep with h2 | h2
      · rw [h2]
        rcases ih (avgConfidence a.2, a.1) with h | h
        · rw [h]
          exact Or.inr (List.mem_cons_self _ _)
        · exact Or.inr (List.mem_cons_of_mem _ h)
      · rw [h2]
        rcases ih acc with h | h
        · exact Or.inl h
        · exact Or.inr (List.mem_cons_of_mem _ h)

/-- When some entry's mean beats the accumulator, the fold of
`getDominantCategory` returns a key of the map. -/
theorem foldl_dominantStep_key :
    ∀ (l : List (String × List ClassificationResult)) (acc : ℚ × String),
      (∃ p ∈ l, acc.1 < avgConfidence p.2) →
      (l.foldl dominantStep acc).2 ∈ l.map Prod.fst := by
  intro l
  induction l with
  | nil => intro acc h; simp at h
  | cons a t ih =>
      intro acc h
      obtain ⟨p, hp, hlt⟩ := h
      rw [List.foldl_cons, List.map_cons]
      by_cases h2 : acc.1 < avgConfidence a.2
      · have hstep : dominantStep acc a = (avgConfidence a.2, a.1) := by
          unfold dominantStep
          rw [if_pos h2]
        rw [hstep]
        rcases foldl_dominantStep_res t (avgConfidence a.2, a.1) with h3 | h3
        · rw [h3]
          exact List.mem_cons_self _ _
        · exact List.mem_cons_of_mem _ h3
      · have hstep : dominantStep acc a = acc := by
          unfold dominantStep
          rw [if_neg h2]
        rcases List.mem_cons.mp hp with rfl | hp2
        · exact absurd hlt h2
        · rw [hstep]
          exact List.mem_cons_of_mem _ (ih acc ⟨p, hp2, hlt⟩)

/-- A key of the categorized map has a `Map.get` hit. -/
theorem mapGet_isSome_of_key (m : List (String × List ClassificationResult))
    (k : String) (h : k ∈ m.map Prod.fst) : (mapGet m k).isSome := by
  obtain ⟨p, hp, hpk⟩ := List.mem_map.mp h
  unfold mapGet
  rw [Option.isSome_map']
  exact List.find?_isSome.mpr ⟨p, hp, by simp [hpk]⟩

/-- The running sum of confidences is positive when every confidence is
nonnegative and one member's confidence is positive. -/
theorem sumConfidence_pos {rs : List ClassificationResult}
    (hnn : ∀ r ∈ rs, 0 ≤ r.confidence) {r0 : ClassificationResult}
    (hr0 : r0 ∈ rs) (hpos : 0 < r0.confidence) : 0 < sumConfidence rs := by
  have haux : ∀ (l : List ClassificationResult) (init : ℚ),
      l.foldl (fun sum r => sum + r.confidence) init =
        init + (l.map (fun r => r.confidence)).sum := by
    intro l
    induction l with
    | nil => intro init; simp
    | cons a t ih =>
        intro init
        rw [List.foldl_cons, ih, List.map_cons, List.sum_cons]
        ring
  unfold sumConfidence
  rw [haux, zero_add]
  calc (0 : ℚ) < r0.confidence := hpos
    _ ≤ (rs.map (fun r => r.confidence)).sum :=
        List.single_le_sum (by simpa using hnn) _
          (List.mem_map_of_mem _ hr0)

/-- The mean confidence is positive when every confidence is nonnegative and
one member's confidence is positive. -/
theorem avgConfidence_pos {rs : List ClassificationResult}
    (hnn : ∀ r ∈ rs, 0 ≤ r.confidence) {r0 : ClassificationResult}
    (hr0 : r0 ∈ rs) (hpos : 0 < r0.confidence) : 0 < avgConfidence rs := by
  unfold avgConfidence
  apply div_pos (sumConfidence_pos hnn hr0 hpos)
  have hlen : 0 < rs.length := List.length_pos.mpr (List.ne_nil_of_mem hr0)
  exact_mod_cast hlen

/-- When the dominant-category lookup hits, every branch of
`generateContextualCaption` produces a caption (no path throws). -/
theorem generateContextualCaption_isSome (t : ClassificationResult)
    (m : List (String × List ClassificationResult)) (b : Bool) (k : String)
    (h : (mapGet m k).isSome) :
    ∃ s, generateContextualCaption t m b k = some s := by
  obtain ⟨rs, hrs⟩ := Option.isSome_iff_exists.mp h
  unfold generateContextualCaption captionTail sameCategoryBranch
  rw [hrs]
  by_cases h1 : m.length = 1 <;> by_cases h2 : rs.length = 1 <;>
    by_cases h3 : b = false <;> simp [h1, h2, h3]

/-! ## C6 -/

/-- Counterexample for C6: on the non-empty list holding one record with
confidence 0, `getDominantCategory` returns `"unknown"` while the only map
key is `"animals"`, so `categorized.get(dominantCategory)!` is `undefined`
and `generateSmartCaption` throws instead of returning a result. -/
theorem caption_zero_confidence_throws :
    generateSmartCaption [⟨"golden_retriever", 0, 0⟩] = none := by
  have havg : avgConfidence [(⟨"golden_retriever", 0, 0⟩ :
      ClassificationResult)] = 0 := by
    norm_num [avgConfidence, sumConfidence]
  have hdom : getDominantCategory
      [("animals", [⟨"golden_retriever", 0, 0⟩])] = "unknown" := by
    unfold getDominantCategory
    rw [List.foldl_cons, List.foldl_nil]
    unfold dominantStep
    rw [havg]
    norm_num
  rw [generateSmartCaption_cons]
  simp only [List.take_succ_cons, List.take_nil]
  rw [show buildCategorized [(⟨"golden_retriever", 0, 0⟩ :
      ClassificationResult)] =
    [("animals", [⟨"golden_retriever", 0, 0⟩])] from rfl]
  rw [hdom]
  simp [generateContextualCaption, mapGet]

/-- C6 (amended): for every non-empty classification list with nonnegative
confidences in which at least one of the first three records has positive
confidence, `generateSmartCaption` succeeds and returns the original list
unchanged in its `classifications` field and the first record's confidence in
its `confidence` field. -/
theorem caption_preserves_input_fields (top : ClassificationResult)
    (rest : List ClassificationResult)
    (hconf : ∀ r ∈ top :: rest, 0 ≤ r.confidence)
    (hpos : ∃ r ∈ (top :: rest).take 3, 0 < r.confidence) :
    ∃ caption, generateSmartCaption (top :: rest) =
      some { altText := caption, classifications := top :: rest,
             confidence := top.confidence } := by
  obtain ⟨r0, hr0, hr0pos⟩ := hpos
  have hplaced : ∃ p ∈ buildCategorized ((top :: rest).take 3), r0 ∈ p.2 :=
    foldl_insert_mem ((top :: rest).take 3) [] r0 (Or.inr hr0)
  obtain ⟨p, hp, hr0p⟩ := hplaced
  have hsub : ∀ x ∈ p.2, x ∈ (top :: rest).take 3 := by
    intro x hx
    rcases foldl_insert_sub ((top :: rest).take 3) [] p hp x hx with h | h
    · obtain ⟨q, hq, -⟩ := h
      exact absurd hq (List.not_mem_nil q)
    · exact h
  have hnn : ∀ x ∈ p.2, 0 ≤ x.confidence := fun x hx =>
    hconf x (List.take_subset _ _ (hsub x hx))
  have havgpos : 0 < avgConfidence p.2 := avgConfidence_pos hnn hr0p hr0pos
  have hkey : getDominantCategory (buildCategorized ((top :: rest).take 3)) ∈
      (buildCategorized ((top :: rest).take 3)).map Prod.fst := by
    unfold getDominantCategory
    exact foldl_dominantStep_key _ (0, "unknown") ⟨p, hp, havgpos⟩
  have hsome := mapGet_isSome_of_key _ _ hkey
  obtain ⟨s, hs⟩ := generateContextualCaption_isSome top
    (buildCategorized ((top :: rest).take 3))
    (decide (1 < (buildCategorized ((top :: rest).take 3)).length))
    (getDominantCategory (buildCategorized ((top :: rest).take 3))) hsome
  refine ⟨s, ?_⟩
  rw [generateSmartCaption_cons, hs]

/-- Witness for C6: a concrete one-record list with positive confidence. -/
theorem caption_preserves_input_fields_witness :
    ∃ caption, generateSmartCaption [⟨"golden_retriever", 0.9, 0.9⟩] =
      some { altText := caption,
             classifications := [⟨"golden_retriever", 0.9, 0.9⟩],
             confidence := 0.9 } :=
  caption_preserves_input_fields ⟨"golden_retriever", 0.9, 0.9⟩ []
    (by norm_num [List.forall_mem_cons])
    ⟨⟨"golden_retriever", 0.9, 0.9⟩, by simp, by norm_num⟩

/-! ## C4 -/

/-- Every animal label has a non-empty Korean name, so the truthiness check
on the translated main object never falls back. -/
theorem animals_korean_nonempty : ∀ l ∈ animalsList, getKoreanName l ≠ "" := by
  decide

/-- C4: for a single classification record whose label belongs to the
`animals` category and whose confidence exceeds 0.8, the caption is the
"cute animal" sentence with the Korean-translated label substituted, and the
result carries the record and its confidence. -/
theorem single_animal_high_confidence_caption (label : String) (conf : ℚ)
    (hmem : label ∈ animalsList) (hconf : 0.8 < conf) :
    generateSmartCaption [⟨label, conf, conf⟩] =
      some { altText := "귀여운 " ++ getKoreanName label ++ "의 사진입니다",
             classifications := [⟨label, conf, conf⟩], confidence := conf } := by
  have hcat : getObjectCategory label = "animals" := by
    have hfind := find?_eq_of_getElem? (fun p => p.2.contains label)
      OBJECT_CATEGORIES 0 ("animals", animalsList) rfl
      (contains_iff_mem_str.mpr hmem) (by simp)
    unfold getObjectCategory
    rw [hfind]
  have hk : getKoreanName label ≠ "" := animals_korean_nonempty label hmem
  have hpos : (0 : ℚ) < conf := lt_trans (by norm_num) hconf
  have hcm : buildCategorized [(⟨label, conf, conf⟩ : ClassificationResult)] =
      [("animals", [⟨label, conf, conf⟩])] := by
    simp [buildCategorized, insertCategorized, hcat]
  have havg : avgConfidence [(⟨label, conf, conf⟩ : ClassificationResult)] =
      conf := by
    unfold avgConfidence sumConfidence
    simp
  have hdom : getDominantCategory [("animals", [⟨label, conf, conf⟩])] =
      "animals" := by
    unfold getDominantCategory
    rw [List.foldl_cons, List.foldl_nil]
    simp only [dominantStep, havg]
    rw [if_pos hpos]
  have hctx : generateContextualCaption
      (⟨label, conf, conf⟩ : ClassificationResult)
      [("animals", [⟨label, conf, conf⟩])]
      (decide (1 < ([("animals", [⟨label, conf, conf⟩])] :
        List (String × List ClassificationResult)).length)) "animals" =
      some ("귀여운 " ++ getKoreanName label ++ "의 사진입니다") := by
    unfold generateContextualCaption
    simp [mapGet, hk, generateSingleObjectCaption, hconf]
  rw [generateSmartCaption_cons]
  simp only [List.take_succ_cons, List.take_nil]
  rw [hcm, hdom, hctx]

/-- Witness for C4: the end-to-end example from the specification, with the
golden retriever at confidence 0.92. -/
theorem single_animal_high_confidence_caption_witness :
    generateSmartCaption [⟨"golden_retriever", 0.92, 0.92⟩] =
      some { altText := "귀여운 골든 리트리버의 사진입니다",
             classifications := [⟨"golden_retriever", 0.92, 0.92⟩],
             confidence := 0.92 } := by
  have h := single_animal_high_confidence_caption "golden_retriever" 0.92
    (by decide) (by norm_num)
  rw [show getKoreanName "golden_retriever" = "골든 리트리버" from by decide] at h
  exact h
